import Mathlib

/-!
Verification development for the Polymarket copy-trading bot.

Shallow embedding conventions:
* JavaScript `number` values are modelled as `ℚ` (all values finite); where a
  computation can produce `NaN`/`±Infinity` that matters to a claim, the type
  `JsNum` is used instead.
* `bigint` micro-unit amounts are modelled as `ℤ`.
* A decimal money string that matches the source regex
  `^(-?\d+)(\.(\d+))?$` is modelled by its decomposition `DecStr`
  (sign, integer-part value, list of fractional digits); a string that fails
  the regex, or a `null`/`undefined` input, is `Option.none`.
* External I/O calls are modelled as oracle fields of an environment record;
  persistent state is passed explicitly.
-/

namespace BOT

/-! ### Money utilities — `src/preflight.ts` (second revision of `src/state.ts`) -/

/-- `s.toUpperCase()` on ASCII data (list-based so concrete strings
evaluate). -/
def jsToUpper (s : String) : String := ⟨s.data.map Char.toUpper⟩

/-- `s.toLowerCase()` on ASCII data. -/
def jsToLower (s : String) : String := ⟨s.data.map Char.toLower⟩

/-- Decomposition of a decimal money string matching `^(-?\d+)(\.(\d+))?$`:
`neg` is whether the sign `-` is present, `whole` the numeric value of the
integer-part digit string, `frac` the list of fractional digits (empty when
the string has no decimal point). -/
structure DecStr where
  neg : Bool
  whole : ℕ
  frac : List ℕ
deriving Repr, DecidableEq

/-- Value of a digit string read left to right (`BigInt(str)` on digits). -/
def digitsVal (ds : List ℕ) : ℕ := ds.foldl (fun a d => a * 10 + d) 0

def USDC_DECIMALS : ℕ := 6

/-- `SCALE = 10n ** BigInt(USDC_DECIMALS)`. -/
def SCALE : ℤ := 10 ^ USDC_DECIMALS

/-- `parseDecimalToFixed(value, decimals, roundUp)` from `src/preflight.ts`.
`none` covers an empty/unmatched input string (and `String(value)` of a
non-matching value), for which the source returns `0n`. -/
def parseDecimalToFixed (d? : Option DecStr) (decimals : ℕ) (roundUp : Bool) : ℤ :=
  match d? with
  | none => 0
  | some d =>
    -- frac = fracStr.slice(0, decimals).padEnd(decimals, "0")
    let fracBase : ℕ := digitsVal (d.frac.take decimals ++ List.replicate (decimals - d.frac.length) 0)
    if roundUp ∧ decimals < d.frac.length ∧ (d.frac.drop decimals).any (fun x => x ≠ 0) then
      let fracNum := fracBase + 1
      let fc : ℕ × ℕ := if 10 ^ decimals ≤ fracNum then (fracNum - 10 ^ decimals, 1) else (fracNum, 0)
      let combined : ℤ := ((d.whole + fc.2) * 10 ^ decimals + fc.1 : ℕ)
      if d.neg then -combined else combined
    else
      let combined : ℤ := (d.whole * 10 ^ decimals + fracBase : ℕ)
      if d.neg then -combined else combined

/-- `parseUsdcToMicro` (`undefined`/`null` are the `none` case). -/
def parseUsdcToMicro (v : Option DecStr) : ℤ := parseDecimalToFixed v USDC_DECIMALS false

/-- `parseUsdcToMicroRoundedUp`. -/
def parseUsdcToMicroRoundedUp (v : Option DecStr) : ℤ := parseDecimalToFixed v USDC_DECIMALS true

/-- Output shape of `formatUsdcMicro`: the produced decimal string is
`[-]whole[.frac]` where the fractional part has `fracLen` digits of value
`fracVal` (trailing zeros already stripped; `fracLen = 0` means no dot). -/
structure DecOut where
  neg : Bool
  whole : ℕ
  fracVal : ℕ
  fracLen : ℕ
deriving Repr, DecidableEq

/-- Strip all trailing `'0'` characters from the `n`-digit rendering of `f`
(`.replace(/0+$/, "")` on the `padStart(n, "0")` string); returns the value
and length of the remaining digit string. -/
def stripTrailingZeros (f : ℕ) : ℕ → ℕ × ℕ
  | 0 => (f, 0)
  | n + 1 => if f % 10 = 0 then stripTrailingZeros (f / 10) n else (f, n + 1)

/-- `formatUsdcMicro(value)` from `src/preflight.ts`. -/
def formatUsdcMicro (v : ℤ) : DecOut :=
  let neg := v < 0
  let abs : ℕ := v.natAbs
  let whole := abs / 10 ^ USDC_DECIMALS
  let fr := abs % 10 ^ USDC_DECIMALS
  let s := stripTrailingZeros fr USDC_DECIMALS
  ⟨neg, whole, s.1, s.2⟩

/-- Rational value denoted by a decimal money string. -/
def DecStr.val (d : DecStr) : ℚ :=
  (if d.neg then -1 else 1) * ((d.whole : ℚ) + (digitsVal d.frac : ℚ) / 10 ^ d.frac.length)

/-- Rational value denoted by the output string of `formatUsdcMicro`. -/
def DecOut.val (o : DecOut) : ℚ :=
  (if o.neg then -1 else 1) * ((o.whole : ℚ) + (o.fracVal : ℚ) / 10 ^ o.fracLen)

/-- One open order as consumed by `computeReservedUsdcMicro`: the `side`
string and the decimal-string fields fed to `parseUsdcToMicroRoundedUp`. -/
structure OpenOrder where
  side : String
  price : Option DecStr
  original_size : Option DecStr
  size_matched : Option DecStr

/-- `computeReservedUsdcMicro(openOrders)` from `src/preflight.ts`. -/
def computeReservedUsdcMicro (openOrders : List OpenOrder) : ℤ :=
  openOrders.foldl
    (fun reserved order =>
      if jsToUpper order.side ≠ "BUY" then reserved
      else
        let priceMicro := parseUsdcToMicroRoundedUp order.price
        let originalSize := parseUsdcToMicroRoundedUp order.original_size
        let matchedSize := parseUsdcToMicroRoundedUp order.size_matched
        let remaining := if matchedSize < originalSize then originalSize - matchedSize else 0
        if remaining ≤ 0 ∨ priceMicro ≤ 0 then reserved
        else reserved + priceMicro * remaining / SCALE)
    0

/-- `calculateAvailableUsdcMicro(balance, allowance, reserved)` from
`src/preflight.ts`. -/
def calculateAvailableUsdcMicro (balance allowance reserved : ℤ) : ℤ :=
  let spendable := if balance < allowance then balance else allowance
  let available := spendable - reserved
  if 0 < available then available else 0

/-! ### `src/clob.ts` helpers -/

/-- `computeGtdExpirationSeconds(nowSeconds, ttlSeconds, safetySeconds)` from
`src/clob.ts`. -/
def computeGtdExpirationSeconds (nowSeconds ttlSeconds safetySeconds : ℚ) : ℤ :=
  let base := max 0 ⌊nowSeconds⌋
  let ttl := max 0 ⌊ttlSeconds⌋
  let safety := max 0 ⌊safetySeconds⌋
  let minExpiration := base + safety + 1
  let candidate := base + safety + ttl
  max minExpiration candidate

/-- `value.toFixed(d)` re-read as a number: round to `d` decimal places
(nearest, half away handled as half-up; exact ties do not occur in the
paths the claims exercise). -/
def jsToFixed (x : ℚ) (d : ℕ) : ℚ := (⌊x * 10 ^ d + 1 / 2⌋ : ℚ) / 10 ^ d

/-- `roundPriceToTick(price, tickSize, side)` from `src/clob.ts`; the tick
size string is carried as its `DecStr` decomposition so that both
`toNumber(tickSize)` (its value) and `countDecimals(tickSize)` (its
fractional length) are available. -/
def roundPriceToTick (price : ℚ) (tickSize : DecStr) (isBuy : Bool) : ℚ :=
  let tick := tickSize.val
  if tick ≤ 0 then price
  else
    let ticks := price / tick
    let rounded : ℤ := if isBuy then ⌈ticks - 1 / 10 ^ 9⌉ else ⌊ticks + 1 / 10 ^ 9⌋
    jsToFixed ((rounded : ℚ) * tick) tickSize.frac.length

/-- `roundSize(value, precision)` from `src/mirror.ts` (precision is the
non-negative `countDecimals` of the min-order-size string). -/
def roundSize (value : ℚ) (precision : ℕ) : ℚ :=
  if precision = 0 then (⌊value⌋ : ℚ)
  else (⌊value * 10 ^ precision⌋ : ℚ) / 10 ^ precision

/-! ### Leader selection — `src/selector.ts` (second revision of
`src/unnamed/part_005`) -/

/-- `TraderScore` from `src/types.ts`. -/
structure TraderScore where
  proxyWallet : String
  displayName : String
  roi : ℚ
  realizedPnlSum : ℚ
  totalBoughtSum : ℚ
  sample : ℕ
  openPnlSum : ℚ
  score : ℚ
  eligible : Bool
  timestampMs : ℤ
deriving Repr, DecidableEq

inductive FollowMode where
  | LEADER
  | TOPK
deriving Repr, DecidableEq

/-- Configuration fields consumed by `selectLeaders`. -/
structure SelConfig where
  followMode : FollowMode
  topK : ℤ
  cooldownMs : ℤ
  minHoldMs : ℤ
  switchMarginPct : ℚ
  stopScore : ℚ
  stopRealizedPnl : ℚ

/-- The `StateStore` rows touched by `selectLeaders`:
`switches` (`getLastSwitchedAway`, default `0`), `topk_state` and
`leader_state`. -/
structure SelState where
  lastSwitchedAway : String → ℤ
  topkLeaders : List String
  currentLeader : Option String
  sinceMs : Option ℤ

/-- `state.setSwitchedAway(wallet, ts)`. -/
def setSwitchedAway (st : SelState) (w : String) (ts : ℤ) : SelState :=
  { st with lastSwitchedAway := fun x => if x = w then ts else st.lastSwitchedAway x }

/-- `inCooldown(state, proxyWallet, cooldownMs, now)`. -/
def inCooldown (st : SelState) (w : String) (cooldownMs now : ℤ) : Bool :=
  let last := st.lastSwitchedAway w
  decide (0 < last ∧ now - last < cooldownMs)

/-- Stable insertion step for `sortScores`: keeps strictly higher-scoring
elements in front, placing the inserted element before equals that came
later in the original list. -/
def insertScore (s : TraderScore) : List TraderScore → List TraderScore
  | [] => [s]
  | t :: ts => if s.score < t.score then t :: insertScore s ts else s :: t :: ts

/-- `sortScores(scores)`: `Array.prototype.sort` with comparator
`(a, b) => b.score - a.score` is a stable descending sort by score; this
stable insertion sort computes the same list. -/
def sortScores : List TraderScore → List TraderScore
  | [] => []
  | s :: ss => insertScore s (sortScores ss)

/-- One `(wallet, weight)` entry of a `LeaderSelection`. -/
structure LeaderEntry where
  proxyWallet : String
  displayName : String
  score : ℚ
  weight : ℚ
deriving Repr, DecidableEq

/-- `LeaderSelection` from `src/types.ts` (the diagnostic `meta` record is
not modelled). -/
structure LeaderSelection where
  mode : FollowMode
  leader : Option TraderScore
  leaders : List LeaderEntry
  reason : String
deriving Repr, DecidableEq

/-- The `!currentLeader || !currentScore || !currentScore.eligible` branch of
`selectLeaders` (LEADER mode): promote `best` if possible, else an empty
selection with a cooldown-aware reason. -/
def selectLeadersReplace (st : SelState) (config : SelConfig) (now : ℤ)
    (best? : Option TraderScore) (currentLeader : Option String)
    (eligibleCount : ℕ) : LeaderSelection × SelState :=
  match best? with
  | some best =>
    if ¬ inCooldown st best.proxyWallet config.cooldownMs now then
      let st1 :=
        match currentLeader with
        | some w => setSwitchedAway st w now
        | none => st
      (⟨.LEADER, some best,
        [LeaderEntry.mk best.proxyWallet best.displayName best.score 1],
        "current-leader-ineligible"⟩,
       { st1 with currentLeader := some best.proxyWallet, sinceMs := some now })
    else
      (⟨.LEADER, none, [], if eligibleCount = 0 then "no-eligible-leader" else "cooldown-active"⟩,
       st)
  | none =>
    (⟨.LEADER, none, [], "no-eligible-leader"⟩, st)

/-- Continuation of the LEADER branch of `selectLeaders` after the
initial-leader case: the ineligible-leader replacement, the
stop/margin-gated switch, and the holding fallback. -/
def selectLeadersHeld (st : SelState) (config : SelConfig) (now : ℤ)
    (best? : Option TraderScore) (currentLeader : Option String) (currentSince : ℤ)
    (currentScore? : Option TraderScore) (eligibleCount : ℕ) : LeaderSelection × SelState :=
  match currentScore? with
  | none =>
    selectLeadersReplace st config now best? currentLeader eligibleCount
  | some currentScore =>
    if currentLeader = none ∨ currentScore.eligible = false then
      selectLeadersReplace st config now best? currentLeader eligibleCount
    else
      let stopScoreTriggered := currentScore.score < config.stopScore
      let stopRealizedTriggered := currentScore.realizedPnlSum < config.stopRealizedPnl
      let stopCondition := stopScoreTriggered ∨ stopRealizedTriggered
      let holdElapsed := now - currentSince
      let canSwitch := stopCondition ∨ config.minHoldMs ≤ holdElapsed
      let switchOut :=
        match best? with
        | some best =>
          if best.proxyWallet ≠ currentLeader.getD "" ∧ canSwitch then
            let threshold := currentScore.score * (1 + config.switchMarginPct)
            if threshold ≤ best.score ∧
                ¬ inCooldown st best.proxyWallet config.cooldownMs now then
              some
                (⟨.LEADER, some best,
                  [LeaderEntry.mk best.proxyWallet best.displayName best.score 1],
                  if stopScoreTriggered then "stop-score-triggered"
                  else if stopRealizedTriggered then "stop-realized-pnl-triggered"
                  else "score-improvement"⟩,
                 { setSwitchedAway st (currentLeader.getD "") now with
                    currentLeader := some best.proxyWallet, sinceMs := some now })
            else none
          else none
        | none => none
      match switchOut with
      | some out => out
      | none =>
        (⟨.LEADER, some currentScore,
          [LeaderEntry.mk currentScore.proxyWallet currentScore.displayName currentScore.score 1],
          if holdElapsed < config.minHoldMs ∧ ¬ stopCondition then "min-hold-not-satisfied"
          else "holding-leader"⟩, st)

/-- `selectLeaders(scores, config, state)` from `src/selector.ts`;
`Date.now()` is the explicit `now`, and the `StateStore` writes are
returned as the second component. -/
def selectLeaders (scores : List TraderScore) (config : SelConfig) (st : SelState)
    (now : ℤ) : LeaderSelection × SelState :=
  let eligible := scores.filter (fun s => s.eligible)
  let sorted := sortScores eligible
  let eligibleCount := eligible.length
  if config.followMode = .TOPK then
    let prev := st.topkLeaders
    let cooldownFiltered := sorted.filter (fun s => ¬ inCooldown st s.proxyWallet config.cooldownMs now)
    let selected := cooldownFiltered.take (max 1 config.topK).toNat
    let totalPositive := selected.foldl (fun sum s => sum + if 0 < s.score then s.score else 0) 0
    if selected.length = 0 ∨ totalPositive ≤ 0 then
      let st1 := prev.foldl (fun acc w => setSwitchedAway acc w now) st
      let st2 := { st1 with topkLeaders := [] }
      let reason :=
        if selected.length = 0 then
          if eligibleCount = 0 then "no-eligible-leaders" else "cooldown-active"
        else "no-positive-scores"
      (⟨.TOPK, none, [], reason⟩, st2)
    else
      let leaders := selected.map (fun s =>
        LeaderEntry.mk s.proxyWallet s.displayName s.score (max 0 s.score / totalPositive))
      let selectedWallets := leaders.map (fun l => l.proxyWallet)
      let st1 := prev.foldl
        (fun acc w => if w ∈ selectedWallets then acc else setSwitchedAway acc w now) st
      let st2 := { st1 with topkLeaders := selectedWallets }
      (⟨.TOPK, none, leaders,
        if (leaders.length : ℤ) < config.topK then "topk-insufficient" else "topk-selection"⟩, st2)
  else
    let best? := sorted.head?
    let currentLeader := st.currentLeader
    let currentSince := st.sinceMs.getD 0
    let currentScore? :=
      match currentLeader with
      | none => none
      | some w => scores.find? (fun s => s.proxyWallet = w)
    match currentLeader, best? with
    | none, some best =>
      if ¬ inCooldown st best.proxyWallet config.cooldownMs now then
        (⟨.LEADER, some best,
          [LeaderEntry.mk best.proxyWallet best.displayName best.score 1], "initial-leader"⟩,
         { st with currentLeader := some best.proxyWallet, sinceMs := some now })
      else
        selectLeadersHeld st config now best? currentLeader currentSince currentScore?
          eligibleCount
    | _, _ =>
      selectLeadersHeld st config now best? currentLeader currentSince currentScore?
        eligibleCount

/-! ### Trade normalizer — `src/api/dataApi.ts` (first revision, whose
timestamp handling is `toMs` from `src/utils/time.ts`) -/

/-- A JavaScript number as produced by a `Number(...)` coercion: `NaN`,
`±Infinity`, or a finite value. -/
inductive JsNum where
  | nan
  | posInf
  | negInf
  | val (q : ℚ)
deriving Repr, DecidableEq

/-- `Number.isFinite`. -/
def JsNum.isFinite : JsNum → Bool
  | .val _ => true
  | _ => false

/-- The comparison `x < 1e12` on a JS number (`NaN` compares false). -/
def JsNum.lt1e12 : JsNum → Bool
  | .nan => false
  | .posInf => false
  | .negInf => true
  | .val q => decide (q < 1000000000000)

/-- Multiplication of a JS number by `1000` (`±Infinity` and `NaN` absorb). -/
def JsNum.mul1000 : JsNum → JsNum
  | .val q => .val (q * 1000)
  | j => j

/-- `asNumber(value, fallback = 0)`: `Number(value)` with `NaN` (including
`Number(undefined)`) replaced by the fallback. -/
def asNumber (v : Option JsNum) (fallback : ℚ) : JsNum :=
  match v with
  | none => .val fallback
  | some .nan => .val fallback
  | some j => j

/-- First non-nullish value of a `??` chain. -/
def coalesce {α : Type} : List (Option α) → Option α
  | [] => none
  | some a :: _ => some a
  | none :: rest => coalesce rest

/-- A raw timestamp field as consumed by `toMs`: a JS number, a string
(carried with its trimmed-emptiness, its `Number(...)` coercion — `none`
when that is `NaN` — and its `Date.parse` result in ms — `none` when that
is `NaN`), or a `Date` (carried with its `getTime()` when finite). -/
inductive JsTime where
  | num (j : JsNum)
  | str (isEmptyTrim : Bool) (numericVal : Option JsNum) (dateParseMs : Option ℤ)
  | date (ms : Option ℤ)
deriving Repr, DecidableEq

/-- `toMs(input)` from `src/utils/time.ts`: `null` on unresolvable input,
otherwise milliseconds (values below `1e12` are treated as seconds). -/
def toMs : Option JsTime → Option JsNum
  | none => none
  | some (.date ms) => ms.map (fun m => JsNum.val m)
  | some (.num j) =>
    if j.isFinite = false then none
    else some (if j.lt1e12 then j.mul1000 else j)
  | some (.str isEmptyTrim numericVal dateParseMs) =>
    if isEmptyTrim then none
    else
      match numericVal with
      | some j => some (if j.lt1e12 then j.mul1000 else j)
      | none => dateParseMs.map (fun m => JsNum.val m)

/-- A raw signal record as ducked by `normalizeTrade`: each upstream field
is `none` when absent (`undefined`/`null`); numeric-ish fields carry their
`Number(...)` coercion. -/
structure RawTrade where
  conditionId : Option String := none
  condition_id : Option String := none
  market : Option String := none
  marketId : Option String := none
  outcomeIndexF : Option JsNum := none
  outcome_indexF : Option JsNum := none
  outcomeF : Option JsNum := none
  side : Option String := none
  takerSide : Option String := none
  taker_side : Option String := none
  sizeF : Option JsNum := none
  quantityF : Option JsNum := none
  amountF : Option JsNum := none
  sharesF : Option JsNum := none
  priceF : Option JsNum := none
  avgPriceF : Option JsNum := none
  rateF : Option JsNum := none
  timestampF : Option JsTime := none
  timeF : Option JsTime := none
  createdAtF : Option JsTime := none
  created_atF : Option JsTime := none
  transactionHash : Option String := none
  transaction_hash : Option String := none
  txHash : Option String := none

/-- The normalized `Trade` entity (the raw-string echo fields `sizeRaw`,
`priceRaw`, `timestampRaw` are not modelled). -/
structure NTrade where
  proxyWallet : String
  transactionHash : String
  conditionId : String
  outcomeIndex : JsNum
  side : String
  size : JsNum
  price : JsNum
  timestampMs : JsNum
deriving Repr, DecidableEq

/-- `normalizeTrade(raw, proxyWallet)` from `src/api/dataApi.ts`. -/
def normalizeTrade (raw : RawTrade) (proxyWallet : String) : Option NTrade :=
  let conditionId? := coalesce [raw.conditionId, raw.condition_id, raw.market, raw.marketId]
  let outcomeIndex := asNumber (coalesce [raw.outcomeIndexF, raw.outcome_indexF, raw.outcomeF]) 0
  let sideRaw := jsToUpper ((coalesce [raw.side, raw.takerSide, raw.taker_side]).getD "")
  let side? : Option String := if sideRaw = "BUY" ∨ sideRaw = "SELL" then some sideRaw else none
  let size := asNumber
    (some ((coalesce [raw.sizeF, raw.quantityF, raw.amountF, raw.sharesF]).getD (.val 0))) 0
  let price := asNumber (some ((coalesce [raw.priceF, raw.avgPriceF, raw.rateF]).getD (.val 0))) 0
  let timestampMs? := toMs (coalesce [raw.timestampF, raw.timeF, raw.createdAtF, raw.created_atF])
  let transactionHash := (coalesce [raw.transactionHash, raw.transaction_hash, raw.txHash]).getD ""
  if conditionId?.getD "" = "" ∨ side? = none ∨ outcomeIndex.isFinite = false then none
  else if size.isFinite = false ∨ price.isFinite = false then none
  else
    match timestampMs? with
    | none => none
    | some ts =>
      some ⟨proxyWallet, transactionHash, conditionId?.getD "", outcomeIndex,
        side?.getD "", size, price, ts⟩

/-! ### Mirror decision engine — third revision of `src/mirror.ts` -/

inductive Side where
  | BUY
  | SELL
deriving Repr, DecidableEq

/-- The `Trade` input of `mirrorTrade`. Numeric fields are total `ℚ` and the
side is the inductive `Side`, so the `Number.isFinite` and side-validity
checks of `getMissingTradeFields` are vacuous in this embedding. -/
structure MTrade where
  proxyWallet : String
  transactionHash : String
  conditionId : String
  outcomeIndex : ℕ
  side : Side
  size : ℚ
  price : ℚ
  timestampMs : ℚ
deriving Repr, DecidableEq

/-- `getMissingTradeFields(trade)` from `src/mirror.ts` (the numeric and
side checks cannot fire in this embedding, see `MTrade`). -/
def getMissingTradeFields (t : MTrade) : List String :=
  (if t.proxyWallet = "" then ["proxyWallet"] else []) ++
    (if t.transactionHash = "" then ["transactionHash"] else []) ++
      (if t.conditionId = "" then ["conditionId"] else [])

def isHexDigit (c : Char) : Bool :=
  c.isDigit || (decide ('a' ≤ c) && decide (c ≤ 'f')) || (decide ('A' ≤ c) && decide (c ≤ 'F'))

/-- `/^0x[0-9a-fA-F]{n}$/.test(s)`. -/
def looksLikeHex (s : String) (n : ℕ) : Bool :=
  match s.toList with
  | '0' :: 'x' :: rest => decide (rest.length = n) && rest.all isHexDigit
  | _ => false

/-- `validateTokenId(tokenId, conditionId, ...)` from `src/mirror.ts`;
`Except.error` carries the skip reason. -/
def validateTokenId (tokenId? : Option String) (conditionId : String) : Except String String :=
  match tokenId? with
  | none => .error "missing tokenId"
  | some tokenId =>
    if tokenId = "" then .error "missing tokenId"
    else if tokenId = conditionId ∨ looksLikeHex tokenId 64 then
      .error "tokenID looks like conditionId"
    else if looksLikeHex tokenId 40 then .error "tokenID looks like address"
    else .ok tokenId

/-- `isValidAddress(value)` from `src/mirror.ts`. -/
def isValidAddress (v : Option String) : Bool :=
  match v with
  | none => false
  | some s => if s = "" then false else looksLikeHex s 40

/-- Outcome of an awaited collaborator call: success, or a thrown error
with the `isAuthError` classification of its `extractErrorInfo`. -/
inductive FetchOutcome (α : Type) where
  | ok (a : α)
  | err (isAuth : Bool)

/-- Configuration fields consumed by `mirrorTrade`/`tradingPreflight`.
`maxDailyUsdc = none` models the `Infinity` default (not
`Number.isFinite`). -/
structure MirrorConfig where
  copyRatio : ℚ
  maxUsdcPerTrade : ℚ
  maxSharesPerTrade : ℚ
  slippagePct : ℚ
  maxDailyUsdc : Option ℚ
  orderTtlSeconds : ℚ
  expirationSafetySeconds : ℚ
  marketEndSafetySeconds : ℚ
  dryRun : Bool
  signatureType : ℤ
  funderAddress : Option String
  myUserAddress : String
  balanceErrorCooldownMs : ℚ

/-- Oracle inputs of `tradingPreflight`: the signer address and the two
balance/open-orders fetches; `authFailureRecent` is the module-state test
`authFailure && Date.now() - authFailure.at < AUTH_BACKOFF_MS`. -/
structure PreflightEnv where
  signerAddress : Option String
  authFailureRecent : Bool
  balanceFetch : FetchOutcome (Option DecStr × Option DecStr)
  openOrdersFetch : FetchOutcome (List OpenOrder)

/-- Result of `tradingPreflight` (context payloads are not modelled). -/
inductive PreflightOut where
  | ok (balanceMicro allowanceMicro reservedMicro availableMicro : ℤ)
  | fail (reasonCode reason : String)
deriving Repr, DecidableEq

/-- `notional.toFixed(6)` re-parsed by `parseUsdcToMicro`: the value rounded
to the nearest micro-unit (half up). -/
def neededMicroOf (notional : ℚ) : ℤ := ⌊notional * 10 ^ 6 + 1 / 2⌋

/-- `tradingPreflight(tradingClient, config, notional)` from
`src/mirror.ts`. -/
def tradingPreflight (cfg : MirrorConfig) (penv : PreflightEnv) (notional : ℚ) : PreflightOut :=
  let walletAddress := penv.signerAddress
  let funderAddress := cfg.funderAddress
  let sigMismatch : Bool :=
    match funderAddress, walletAddress with
    | some f, some w => decide (f ≠ "") && decide (w ≠ "") && decide (jsToLower f ≠ jsToLower w)
    | _, _ => false
  if cfg.signatureType = 0 ∧ sigMismatch then
    .fail "SKIP_FUNDER_MISMATCH" "funder address does not match signer for signatureType=0"
  else if (cfg.signatureType = 1 ∨ cfg.signatureType = 2) ∧ isValidAddress funderAddress = false then
    .fail "SKIP_INVALID_FUNDER" "funder address missing or invalid for proxy signatures"
  else if cfg.signatureType ≠ 0 ∧ cfg.signatureType ≠ 1 ∧ cfg.signatureType ≠ 2 then
    .fail "SKIP_INVALID_SIGNATURE_TYPE" "signatureType must be 0, 1, or 2"
  else if penv.authFailureRecent then .fail "SKIP_AUTH_FAIL" "recent authentication failure"
  else
    match penv.balanceFetch with
    | .err isAuth =>
      if isAuth then .fail "SKIP_AUTH_FAIL" "authentication failed"
      else .fail "SKIP_PREFLIGHT_ERROR" "balance/allowance check failed"
    | .ok (b, a) =>
      let balanceMicro := parseUsdcToMicro b
      let allowanceMicro := parseUsdcToMicro a
      match penv.openOrdersFetch with
      | .err isAuth =>
        if isAuth then .fail "SKIP_AUTH_FAIL" "authentication failed"
        else .fail "SKIP_PREFLIGHT_ERROR" "open orders check failed"
      | .ok orders =>
        let reservedMicro := computeReservedUsdcMicro orders
        let availableMicro := calculateAvailableUsdcMicro balanceMicro allowanceMicro reservedMicro
        let neededMicro := neededMicroOf notional
        if availableMicro < neededMicro then
          if allowanceMicro < neededMicro then
            .fail "SKIP_ALLOWANCE_LOW" "allowance too low for desired notional"
          else if 0 < reservedMicro ∧ availableMicro = 0 then
            .fail "SKIP_RESERVED_OPEN_ORDERS" "collateral reserved in open orders"
          else .fail "SKIP_NO_AVAILABLE_COLLATERAL" "insufficient available collateral"
        else .ok balanceMicro allowanceMicro reservedMicro availableMicro

/-- Market metadata as consumed by `mirrorTrade`; `categoryAllowed` and
`categoryReason` are the oracle result of
`evaluateMarketCategory(market, config)`. -/
structure MarketMeta where
  closed : Bool
  archived : Bool
  active : Option Bool
  categoryAllowed : Bool
  categoryReason : Option String

/-- `OrderBookMeta` as used by the sizing/pricing steps: the tick-size and
min-order-size decimal strings as `DecStr` (value plus `countDecimals`). -/
structure BookMeta where
  tickSize : DecStr
  minOrderSize : DecStr
  negRisk : Bool

/-- `extractErrorInfo`/response-message payload with the oracle results of
the source string classifiers on it. -/
structure ErrInfo where
  message : String
  isAuth : Bool
  isExpiration : Bool
  isBalance : Bool
deriving Repr, DecidableEq

/-- One `attemptOrder` outcome: a thrown error, or a response with its
`success` flag (`true` covers every response not strictly `=== false`). -/
inductive OrderAttempt where
  | err (info : ErrInfo)
  | resp (success : Bool) (info : ErrInfo) (orderId : Option String)

/-- Oracle inputs of one `mirrorTrade` invocation: results of every awaited
collaborator call, the `Date.now()` readings, and the balance-cooldown
module state. -/
structure MirrorEnv where
  tokenIds : List String
  now1 : ℤ
  balanceCooldownUntilMs : ℤ
  market : Option MarketMeta
  gammaEndMs : Option ℚ
  clobEndMs : Option ℚ
  now2 : ℤ
  bookPrice : Option ℚ
  priceFromGetPrice : Option ℚ
  meta : BookMeta
  positionSize : Option ℚ
  today : String
  hasTradingClient : Bool
  hasAllowanceManager : Bool
  allowanceCheck : FetchOutcome Bool
  preflightEnv : PreflightEnv
  nowSeconds : ℤ
  gtdAttempt : OrderAttempt
  gtcAttempt : OrderAttempt

inductive MStatus where
  | placed
  | skipped
  | dry_run
  | failed
deriving Repr, DecidableEq

/-- `MirrorResult` (diagnostic error payloads are not modelled). -/
structure MResult where
  status : MStatus
  reason : String
  orderId : Option String := none
  notional : Option ℚ := none
  size : Option ℚ := none
  limitPrice : Option ℚ := none

/-- Output of the embedded `mirrorTrade`: the `MirrorResult`, the
`daily_notional` store after the call, and ghost observations of the
`buyOrderTtlSeconds` local, the desired notional, and the GTD expiration
passed to order submission. -/
structure MOut where
  result : MResult
  store : String → ℚ
  buyOrderTtlSeconds : Option ℚ
  desiredNotional : Option ℚ
  gtdExpiration : Option ℤ

/-- `state.addDailyNotional(date, notional)`. -/
def addDailyNotional (store : String → ℚ) (k : String) (v : ℚ) : String → ℚ :=
  fun x => if x = k then store k + v else store x

/-- A skip result: the store is left untouched. -/
def mkSkip (store : String → ℚ) (reason : String) (buyTtl : Option ℚ) (des : Option ℚ) : MOut :=
  ⟨{ status := .skipped, reason := reason }, store, buyTtl, des, none⟩

/-- Final stage of `mirrorTrade` (`src/mirror.ts` from the dry-run return
to the final placement): dry-run accounting, GTD expiration, the GTD→GTC
fallback, and the terminal placed/failed results. The sized order values
are passed in. -/
def mirrorSubmit (trade : MTrade) (cfg : MirrorConfig) (env : MirrorEnv)
    (store : String → ℚ) (buyTtl : Option ℚ) (desired : Option ℚ)
    (notional shares limitPrice : ℚ) : MOut :=
  if cfg.dryRun ∨ env.hasTradingClient = false then
    ⟨{ status := .dry_run, reason := "dry run", notional := some notional,
        size := some shares, limitPrice := some limitPrice },
      addDailyNotional store env.today notional, buyTtl, desired, none⟩
  else
    let ttlSeconds :=
      if trade.side = .BUY ∧ buyTtl ≠ none then buyTtl.getD cfg.orderTtlSeconds
      else cfg.orderTtlSeconds
    let expiration :=
      computeGtdExpirationSeconds (env.nowSeconds : ℚ) ttlSeconds cfg.expirationSafetySeconds
    let attempt :=
      match env.gtdAttempt with
      | .err info => if info.isExpiration then env.gtcAttempt else .err info
      | .resp success info oid =>
        if success = false ∧ info.isExpiration then env.gtcAttempt
        else .resp success info oid
    match attempt with
    | .err info =>
      ⟨{ status := .failed, reason := if info.isAuth then "auth failed" else "order failed" },
        store, buyTtl, desired, some expiration⟩
    | .resp success _ oid =>
      if success = false then
        ⟨{ status := .failed, reason := "order rejected" }, store, buyTtl, desired,
          some expiration⟩
      else
        ⟨{ status := .placed, reason := "order placed", orderId := oid,
            notional := some notional, size := some shares, limitPrice := some limitPrice },
          addDailyNotional store env.today notional, buyTtl, desired, some expiration⟩

/-- The BUY preflight gates of `mirrorTrade` (`src/mirror.ts`): the
allowance-manager check and `tradingPreflight`, then `mirrorSubmit`. -/
def mirrorPreflightGate (trade : MTrade) (cfg : MirrorConfig) (env : MirrorEnv)
    (store : String → ℚ) (buyTtl : Option ℚ) (desired : Option ℚ)
    (notional shares limitPrice : ℚ) : MOut :=
  let allowanceSkip : Option String :=
    if trade.side = .BUY ∧ cfg.dryRun = false ∧ env.hasTradingClient ∧
        env.hasAllowanceManager then
      match env.allowanceCheck with
      | .ok true => none
      | .ok false => some "allowance too low"
      | .err _ => some "allowance check failed"
    else none
  match allowanceSkip with
  | some r => mkSkip store r buyTtl desired
  | none =>
    let preflightSkip : Option String :=
      if trade.side = .BUY ∧ cfg.dryRun = false ∧ env.hasTradingClient then
        match tradingPreflight cfg env.preflightEnv notional with
        | .ok _ _ _ _ => none
        | .fail _ reason => some reason
      else none
    match preflightSkip with
    | some r => mkSkip store r buyTtl desired
    | none => mirrorSubmit trade cfg env store buyTtl desired notional shares limitPrice

/-- The share-sizing, limit-price and post-rounding daily-cap block of
`mirrorTrade` (`src/mirror.ts`), then `mirrorPreflightGate`. -/
def mirrorSizing (trade : MTrade) (cfg : MirrorConfig) (env : MirrorEnv)
    (store : String → ℚ) (buyTtl : Option ℚ) (desiredNotional execPrice : ℚ) : MOut :=
  let shares0 := desiredNotional / execPrice
  let shares1 := min shares0 cfg.maxSharesPerTrade
  let shares2 :=
    if trade.side = .SELL then min shares1 (max 0 (env.positionSize.getD 0)) else shares1
  let minOrderSize := env.meta.minOrderSize.val
  let sizePrecision := env.meta.minOrderSize.frac.length
  let shares := roundSize shares2 sizePrecision
  if shares ≤ 0 ∨ shares < minOrderSize then
    mkSkip store "size below min" buyTtl (some desiredNotional)
  else
    let limitPriceRaw :=
      if trade.side = .BUY then execPrice * (1 + cfg.slippagePct)
      else execPrice * (1 - cfg.slippagePct)
    let limitPrice := roundPriceToTick limitPriceRaw env.meta.tickSize (trade.side = .BUY)
    if limitPrice ≤ 0 then mkSkip store "invalid limit price" buyTtl (some desiredNotional)
    else
      let notional := shares * limitPrice
      let capHit2 : Bool :=
        match cfg.maxDailyUsdc with
        | some cap => decide (cap < store env.today + notional)
        | none => false
      if capHit2 then mkSkip store "daily cap reached" buyTtl (some desiredNotional)
      else mirrorPreflightGate trade cfg env store buyTtl (some desiredNotional) notional
        shares limitPrice

/-- Continuation of `mirrorTrade` after the market-lifecycle gates
(`src/mirror.ts` from the executable-price discovery onward), with the
`buyOrderTtlSeconds` local threaded through. -/
def mirrorTradeRest (trade : MTrade) (weight : ℚ) (cfg : MirrorConfig) (env : MirrorEnv)
    (store : String → ℚ) (buyTtl : Option ℚ) : MOut :=
  let exec1 : Option ℚ :=
    match env.bookPrice with
    | some p => if 0 < p then some p else none
    | none => none
  let execPrice? : Option ℚ :=
    match exec1 with
    | some p => some p
    | none =>
      match env.priceFromGetPrice with
      | some p => if 0 < p then some p else none
      | none => none
  match execPrice? with
  | none => mkSkip store "invalid exec price" buyTtl none
  | some execPrice =>
    let tradeNotional := trade.price * trade.size
    if tradeNotional ≤ 0 then mkSkip store "invalid trade notional" buyTtl none
    else if weight ≤ 0 then mkSkip store "non-positive weight" buyTtl none
    else
      let desiredNotional := min (tradeNotional * cfg.copyRatio * weight) cfg.maxUsdcPerTrade
      if desiredNotional ≤ 0 then mkSkip store "non-positive desired notional" buyTtl none
      else
        let capHit1 : Bool :=
          match cfg.maxDailyUsdc with
          | some cap => decide (cap < store env.today + desiredNotional)
          | none => false
        if capHit1 then mkSkip store "daily cap reached" buyTtl (some desiredNotional)
        else mirrorSizing trade cfg env store buyTtl desiredNotional execPrice

/-- `mirrorTrade(trade, weight, config, state, ...)` from `src/mirror.ts`:
the early gates and (for BUY) the market-lifecycle gates, then
`mirrorTradeRest`. -/
def mirrorTrade (trade : MTrade) (weight : ℚ) (cfg : MirrorConfig) (env : MirrorEnv)
    (store : String → ℚ) : MOut :=
  if getMissingTradeFields trade ≠ [] then mkSkip store "missing required trade fields" none none
  else
    match validateTokenId (env.tokenIds.get? trade.outcomeIndex) trade.conditionId with
    | .error r => mkSkip store r none none
    | .ok _ =>
      if trade.side = .BUY ∧ 0 < cfg.balanceErrorCooldownMs ∧
          env.now1 < env.balanceCooldownUntilMs then
        mkSkip store "balance/allowance cooldown" none none
      else if trade.side = .BUY then
        match env.market with
        | none => mkSkip store "market metadata unavailable" none none
        | some m =>
          if m.categoryAllowed = false then
            mkSkip store (m.categoryReason.getD "market category disallowed") none none
          else if m.closed ∨ m.archived ∨ m.active = some false then
            mkSkip store "market closed/inactive" none none
          else
            match (match env.gammaEndMs with | some e => some e | none => env.clobEndMs) with
            | none => mkSkip store "missing market end time" none none
            | some endMs =>
              let safetyMs := cfg.marketEndSafetySeconds * 1000
              if endMs - safetyMs ≤ (env.now2 : ℚ) then
                mkSkip store "market expired/too close to end" none none
              else
                let maxTtlSeconds :=
                  ((⌊(endMs - (env.now2 : ℚ)) / 1000⌋ : ℤ) : ℚ) - cfg.expirationSafetySeconds
                let ttlSeconds := min cfg.orderTtlSeconds maxTtlSeconds
                if ttlSeconds ≤ 1 then mkSkip store "order TTL crosses market end" none none
                else mirrorTradeRest trade weight cfg env store (some ttlSeconds)
      else
        match env.market with
        | none => mkSkip store "market metadata unavailable" none none
        | some m =>
          if m.categoryAllowed = false then
            mkSkip store (m.categoryReason.getD "market category disallowed") none none
          else mirrorTradeRest trade weight cfg env store none

/-! ### Theorems -/

/-- C1: for every balance, allowance and reserved-collateral triple (integer
micro-units), the available-to-trade quantity computed by the BUY-preflight
helper `calculateAvailableUsdcMicro` equals
`max(0, min(balance, allowance) − reserved)`, and is never negative. -/
theorem claim_C1_available_formula :
    ∀ balance allowance reserved : ℤ,
      calculateAvailableUsdcMicro balance allowance reserved =
          max 0 (min balance allowance - reserved) ∧
        0 ≤ calculateAvailableUsdcMicro balance allowance reserved := by
  intro b a r
  unfold calculateAvailableUsdcMicro
  dsimp only
  constructor
  · split_ifs <;> omega
  · split_ifs <;> omega

/-- Floor commutes with clamping at zero. -/
theorem floor_max_zero (q : ℚ) : ⌊max 0 q⌋ = max 0 ⌊q⌋ := by
  rcases le_total 0 q with h | h
  · rw [max_eq_right h, max_eq_right (Int.floor_nonneg.mpr h)]
  · rw [max_eq_left h, max_eq_left (by simpa using Int.floor_le_floor h), Int.floor_zero]

/-- C10: `computeGtdExpirationSeconds` always returns at least
`floor(max(0, nowSeconds)) + floor(max(0, safetySeconds)) + 1`, i.e. the GTD
expiration is strictly later than now plus the safety margin even for zero
or negative requested TTLs. -/
theorem claim_C10_gtd_expiration_lower_bound :
    ∀ nowSeconds ttlSeconds safetySeconds : ℚ,
      ⌊max 0 nowSeconds⌋ + ⌊max 0 safetySeconds⌋ + 1 ≤
        computeGtdExpirationSeconds nowSeconds ttlSeconds safetySeconds := by
  intro n t s
  unfold computeGtdExpirationSeconds
  dsimp only
  rw [floor_max_zero, floor_max_zero]
  exact le_max_left _ _

/-- Accumulator form of `digitsVal`. -/
theorem foldl_digits (ds : List ℕ) :
    ∀ a : ℕ, ds.foldl (fun a d => a * 10 + d) a = a * 10 ^ ds.length + digitsVal ds := by
  induction ds with
  | nil => intro a; simp [digitsVal]
  | cons d ds ih =>
    intro a
    have hd : digitsVal (d :: ds) = d * 10 ^ ds.length + digitsVal ds := by
      show List.foldl _ _ (d :: ds) = _
      rw [List.foldl_cons, ih]
      simp [digitsVal]
    rw [List.foldl_cons, ih, hd, List.length_cons]
    ring

/-- Appending `k` zero digits multiplies a digit string's value by `10^k`. -/
theorem digitsVal_append_zeros (ds : List ℕ) (k : ℕ) :
    digitsVal (ds ++ List.replicate k 0) = digitsVal ds * 10 ^ k := by
  induction k with
  | zero => simp
  | succ k ih =>
    rw [List.replicate_succ', ← List.append_assoc]
    show ((ds ++ List.replicate k 0) ++ [0]).foldl (fun a d => a * 10 + d) 0 = _
    rw [List.foldl_append]
    show digitsVal (ds ++ List.replicate k 0) * 10 + 0 = digitsVal ds * 10 ^ (k + 1)
    rw [ih]
    ring

/-- Specification of `stripTrailingZeros`: it factors the `n`-digit fraction
into a shorter digit string and a power of ten. -/
theorem stripTrailingZeros_spec :
    ∀ (n f : ℕ), f < 10 ^ n →
      (stripTrailingZeros f n).1 * 10 ^ (n - (stripTrailingZeros f n).2) = f ∧
        (stripTrailingZeros f n).2 ≤ n := by
  intro n
  induction n with
  | zero =>
    intro f hf
    have : f = 0 := by omega
    subst this
    simp [stripTrailingZeros]
  | succ n ih =>
    intro f hf
    by_cases h : f % 10 = 0
    · have hdiv : f / 10 < 10 ^ n := by
        have : f < 10 ^ n * 10 := by
          have := pow_succ 10 n
          omega
        omega
      have hspec := ih (f / 10) hdiv
      have heq : stripTrailingZeros f (n + 1) = stripTrailingZeros (f / 10) n := by
        rw [stripTrailingZeros]
        simp [h]
      rw [heq]
      refine ⟨?_, le_trans hspec.2 (Nat.le_succ n)⟩
      have hle := hspec.2
      have hsub : n + 1 - (stripTrailingZeros (f / 10) n).2 =
          (n - (stripTrailingZeros (f / 10) n).2) + 1 := by omega
      rw [hsub, pow_succ, ← mul_assoc, hspec.1]
      omega
    · have heq : stripTrailingZeros f (n + 1) = (f, n + 1) := by
        rw [stripTrailingZeros]
        simp [h]
      rw [heq]
      simp

/-- The decimal string produced by `formatUsdcMicro` denotes exactly
`v / 10^6`. -/
theorem formatUsdcMicro_val (v : ℤ) : (formatUsdcMicro v).val = (v : ℚ) / 10 ^ 6 := by
  unfold formatUsdcMicro DecOut.val
  dsimp only
  have hfr : v.natAbs % 10 ^ USDC_DECIMALS < 10 ^ USDC_DECIMALS :=
    Nat.mod_lt _ (by norm_num [USDC_DECIMALS])
  obtain ⟨h1, h2⟩ := stripTrailingZeros_spec USDC_DECIMALS (v.natAbs % 10 ^ USDC_DECIMALS) hfr
  set s := stripTrailingZeros (v.natAbs % 10 ^ USDC_DECIMALS) USDC_DECIMALS with hs
  have hne2 : (10 : ℚ) ^ s.2 ≠ 0 := by positivity
  have hne6 : (10 : ℚ) ^ USDC_DECIMALS ≠ 0 := by positivity
  have hfrac : (s.1 : ℚ) / 10 ^ s.2 =
      ((v.natAbs % 10 ^ USDC_DECIMALS : ℕ) : ℚ) / 10 ^ USDC_DECIMALS := by
    rw [← h1]
    push_cast
    rw [show (10 : ℚ) ^ USDC_DECIMALS = 10 ^ s.2 * 10 ^ (USDC_DECIMALS - s.2) by
      rw [← pow_add]; congr 1; omega]
    rw [div_eq_div_iff hne2 (by positivity)]
    ring
  have hsum : v.natAbs / 10 ^ USDC_DECIMALS * 10 ^ USDC_DECIMALS +
      v.natAbs % 10 ^ USDC_DECIMALS = v.natAbs := by
    rw [mul_comm]; exact Nat.div_add_mod _ _
  have habs : ((v.natAbs / 10 ^ USDC_DECIMALS : ℕ) : ℚ) +
      ((v.natAbs % 10 ^ USDC_DECIMALS : ℕ) : ℚ) / 10 ^ USDC_DECIMALS =
      (v.natAbs : ℚ) / 10 ^ USDC_DECIMALS := by
    rw [eq_div_iff hne6, add_mul, div_mul_cancel₀ _ hne6]
    exact_mod_cast hsum
  rw [hfrac, habs]
  simp only [decide_eq_true_eq]
  rcases lt_or_le v 0 with hv | hv
  · rw [if_pos hv, Int.cast_natAbs, abs_of_neg hv]
    push_cast
    simp only [USDC_DECIMALS]
    ring
  · rw [if_neg (not_lt.mpr hv), Int.cast_natAbs, abs_of_nonneg hv]
    simp only [USDC_DECIMALS]
    ring

/-- Rescaling a fraction of at most six decimal digits into micro-units. -/
theorem div_pow_mul (dv : ℚ) (l : ℕ) (hl : l ≤ 6) :
    dv / 10 ^ l * 10 ^ (6 : ℕ) = dv * 10 ^ (6 - l) := by
  rw [show (10 : ℚ) ^ (6 : ℕ) = 10 ^ l * 10 ^ (6 - l) by rw [← pow_add]; congr 1; omega,
    ← mul_assoc, div_mul_cancel₀]
  positivity

/-- `parseUsdcToMicro` is exact on strings with at most six fractional
digits: the integer it returns is the denoted value scaled by `10^6`. -/
theorem parseUsdcToMicro_val (d : DecStr) (hlen : d.frac.length ≤ 6) :
    ((parseUsdcToMicro (some d) : ℤ) : ℚ) = d.val * 10 ^ (6 : ℕ) := by
  unfold parseUsdcToMicro parseDecimalToFixed DecStr.val USDC_DECIMALS
  simp only [Bool.false_eq_true, false_and, if_false]
  rw [List.take_of_length_le hlen, digitsVal_append_zeros]
  cases hneg : d.neg with
  | false =>
    simp only [hneg, Bool.false_eq_true, if_false, one_mul]
    push_cast
    rw [add_mul, div_pow_mul _ _ hlen]
    norm_num
  | true =>
    simp only [hneg, if_true]
    push_cast
    rw [neg_one_mul, neg_mul, neg_inj, add_mul, div_pow_mul _ _ hlen]
    norm_num

/-- C9: converting a decimal money string with at most six fractional digits
to integer micro-units with `parseUsdcToMicro` and back to a decimal string
with `formatUsdcMicro` is exact — the output string denotes the same value
as the input string. -/
theorem claim_C9_roundtrip (d : DecStr) (hlen : d.frac.length ≤ 6) :
    (formatUsdcMicro (parseUsdcToMicro (some d))).val = d.val := by
  rw [formatUsdcMicro_val, parseUsdcToMicro_val d hlen,
    mul_div_cancel_right₀ _ (show ((10 : ℚ) ^ (6 : ℕ)) ≠ 0 by positivity)]

/-- Witness for C9 at the concrete string `"1.5"`. -/
theorem claim_C9_witness :
    (DecStr.mk false 1 [5]).frac.length ≤ 6 ∧
      (formatUsdcMicro (parseUsdcToMicro (some (DecStr.mk false 1 [5])))).val =
        (DecStr.mk false 1 [5]).val :=
  ⟨by decide, claim_C9_roundtrip _ (by decide)⟩

/-- In the held-leader continuation, when the current leader is eligible,
no stop condition holds, and the minimum hold has not elapsed, the output
keeps the current leader with weight 1 and writes no state. -/
theorem selectLeadersHeld_hold (st : SelState) (config : SelConfig) (now : ℤ)
    (best? : Option TraderScore) (w : String) (currentSince : ℤ) (cs : TraderScore)
    (ec : ℕ) (helig : cs.eligible = true)
    (hstop1 : ¬ cs.score < config.stopScore)
    (hstop2 : ¬ cs.realizedPnlSum < config.stopRealizedPnl)
    (hhold : now - currentSince < config.minHoldMs) :
    selectLeadersHeld st config now best? (some w) currentSince (some cs) ec =
      (⟨.LEADER, some cs, [LeaderEntry.mk cs.proxyWallet cs.displayName cs.score 1],
        "min-hold-not-satisfied"⟩, st) := by
  have hstop : ¬ (cs.score < config.stopScore ∨ cs.realizedPnlSum < config.stopRealizedPnl) := by
    tauto
  have hcansw : ¬ ((cs.score < config.stopScore ∨ cs.realizedPnlSum < config.stopRealizedPnl) ∨
      config.minHoldMs ≤ now - currentSince) := by
    rintro (h | h)
    · exact hstop h
    · omega
  unfold selectLeadersHeld
  dsimp only
  rw [if_neg (by simp [helig])]
  cases best? with
  | none =>
    dsimp only
    rw [if_pos ⟨hhold, hstop⟩]
  | some best =>
    dsimp only
    rw [if_neg (fun h => hcansw h.2), if_pos ⟨hhold, hstop⟩]

/-- C4: in LEADER mode, when the held leader is still eligible, no stop
condition holds, and the hold age is below `minHoldMs`, `selectLeaders`
keeps the held leader as the single selected wallet with weight 1 (and
writes no state), even if a strictly higher-scoring eligible candidate
exists. -/
theorem claim_C4_min_hold_keeps_leader (scores : List TraderScore) (config : SelConfig)
    (st : SelState) (now : ℤ) (w : String) (cs : TraderScore)
    (hmode : config.followMode = .LEADER)
    (hleader : st.currentLeader = some w)
    (hfind : scores.find? (fun s => s.proxyWallet = w) = some cs)
    (helig : cs.eligible = true)
    (hstop1 : ¬ cs.score < config.stopScore)
    (hstop2 : ¬ cs.realizedPnlSum < config.stopRealizedPnl)
    (hhold : now - st.sinceMs.getD 0 < config.minHoldMs) :
    selectLeaders scores config st now =
      (⟨.LEADER, some cs, [LeaderEntry.mk cs.proxyWallet cs.displayName cs.score 1],
        "min-hold-not-satisfied"⟩, st) := by
  unfold selectLeaders
  rw [if_neg (by rw [hmode]; exact fun h => nomatch h)]
  rw [hleader]
  dsimp only
  rw [hfind]
  exact selectLeadersHeld_hold st config now _ w _ cs _ helig hstop1 hstop2 hhold

def csA4 : TraderScore := ⟨"A", "A", 0, 50, 0, 9, 0, 99, true, 0⟩

def csW4 : TraderScore := ⟨"W", "W", 0, 1, 0, 5, 0, 1, true, 0⟩

def cfg4 : SelConfig := ⟨.LEADER, 3, 10, 100000, 1 / 10, 0, 0⟩

def st4 : SelState := ⟨fun _ => 0, [], some "W", some 1000⟩

/-- Witness for C4: a strictly higher-scoring eligible candidate exists, yet
the held leader is kept. -/
theorem claim_C4_witness :
    (selectLeaders [csA4, csW4] cfg4 st4 2000).1.leaders = [LeaderEntry.mk "W" "W" 1 1] ∧
      csW4.score < csA4.score := by
  have h := claim_C4_min_hold_keeps_leader [csA4, csW4] cfg4 st4 2000 "W" csW4 rfl rfl
    (by decide) rfl (by norm_num [csW4, cfg4]) (by norm_num [csW4, cfg4]) (by decide)
  exact ⟨by rw [h]; rfl, by norm_num [csW4, csA4]⟩

/-- In the held-leader continuation, a stop condition switches to `best`
regardless of hold duration, provided `best` also clears the score-margin
threshold and is not in cooldown. -/
theorem selectLeadersHeld_stop_switch (st : SelState) (config : SelConfig) (now : ℤ)
    (best : TraderScore) (w : String) (currentSince : ℤ) (cs : TraderScore) (ec : ℕ)
    (helig : cs.eligible = true)
    (hstop : cs.score < config.stopScore ∨ cs.realizedPnlSum < config.stopRealizedPnl)
    (hne : best.proxyWallet ≠ w)
    (hcool : inCooldown st best.proxyWallet config.cooldownMs now = false)
    (hmargin : cs.score * (1 + config.switchMarginPct) ≤ best.score) :
    (selectLeadersHeld st config now (some best) (some w) currentSince (some cs) ec).1.leaders =
        [LeaderEntry.mk best.proxyWallet best.displayName best.score 1] ∧
      ((selectLeadersHeld st config now (some best) (some w) currentSince (some cs) ec).1.reason =
          "stop-score-triggered" ∨
        (selectLeadersHeld st config now (some best) (some w) currentSince (some cs) ec).1.reason =
          "stop-realized-pnl-triggered") ∧
      (cs.score < config.stopScore →
        (selectLeadersHeld st config now (some best) (some w) currentSince
          (some cs) ec).1.reason = "stop-score-triggered") ∧
      (selectLeadersHeld st config now (some best) (some w) currentSince
          (some cs) ec).2.currentLeader = some best.proxyWallet ∧
      (selectLeadersHeld st config now (some best) (some w) currentSince
          (some cs) ec).2.lastSwitchedAway w = now := by
  have hred : selectLeadersHeld st config now (some best) (some w) currentSince (some cs) ec =
      (⟨.LEADER, some best, [LeaderEntry.mk best.proxyWallet best.displayName best.score 1],
        if cs.score < config.stopScore then "stop-score-triggered"
        else if cs.realizedPnlSum < config.stopRealizedPnl then "stop-realized-pnl-triggered"
        else "score-improvement"⟩,
       { setSwitchedAway st w now with
          currentLeader := some best.proxyWallet, sinceMs := some now }) := by
    unfold selectLeadersHeld
    dsimp only
    rw [if_neg (by simp [helig]), if_pos ⟨hne, Or.inl hstop⟩,
      if_pos ⟨hmargin, by simp [hcool]⟩]
    rfl
  rw [hred]
  refine ⟨rfl, ?_, ?_, rfl, by simp [setSwitchedAway]⟩
  · by_cases hsc : cs.score < config.stopScore
    · left
      simp [hsc]
    · right
      have hrp : cs.realizedPnlSum < config.stopRealizedPnl := hstop.resolve_left hsc
      simp [hsc, hrp]
  · intro hsc
    simp [hsc]

/-- C3 (amended): in LEADER mode, when the held leader is still eligible, a
stop condition holds, and the top-scoring eligible candidate `best ≠ w` is
not in cooldown AND clears the margin threshold
`best.score ≥ w.score × (1 + switchMarginPct)`, `selectLeaders` switches to
`best` regardless of hold duration, with a stop-triggered reason code and a
cooldown-start write for `w`. -/
theorem claim_C3_stop_switch (scores : List TraderScore) (config : SelConfig)
    (st : SelState) (now : ℤ) (w : String) (cs best : TraderScore)
    (hmode : config.followMode = .LEADER)
    (hleader : st.currentLeader = some w)
    (hfind : scores.find? (fun s => s.proxyWallet = w) = some cs)
    (helig : cs.eligible = true)
    (hstop : cs.score < config.stopScore ∨ cs.realizedPnlSum < config.stopRealizedPnl)
    (hbest : (sortScores (scores.filter (fun s => s.eligible))).head? = some best)
    (hne : best.proxyWallet ≠ w)
    (hcool : inCooldown st best.proxyWallet config.cooldownMs now = false)
    (hmargin : cs.score * (1 + config.switchMarginPct) ≤ best.score) :
    (selectLeaders scores config st now).1.leaders =
        [LeaderEntry.mk best.proxyWallet best.displayName best.score 1] ∧
      ((selectLeaders scores config st now).1.reason = "stop-score-triggered" ∨
        (selectLeaders scores config st now).1.reason = "stop-realized-pnl-triggered") ∧
      (cs.score < config.stopScore →
        (selectLeaders scores config st now).1.reason = "stop-score-triggered") ∧
      (selectLeaders scores config st now).2.currentLeader = some best.proxyWallet ∧
      (selectLeaders scores config st now).2.lastSwitchedAway w = now := by
  have hsel : selectLeaders scores config st now =
      selectLeadersHeld st config now (some best) (some w) (st.sinceMs.getD 0) (some cs)
        (scores.filter (fun s => s.eligible)).length := by
    unfold selectLeaders
    rw [if_neg (by rw [hmode]; exact fun h => nomatch h)]
    rw [hleader]
    dsimp only
    rw [hfind, hbest]
  rw [hsel]
  exact selectLeadersHeld_stop_switch st config now best w _ cs _ helig hstop hne hcool hmargin

/-- In the held-leader continuation, when `best` misses the margin threshold
the selection stays on the current leader even under a stop condition; the
reason is `holding-leader`. -/
theorem selectLeadersHeld_no_margin (st : SelState) (config : SelConfig) (now : ℤ)
    (best : TraderScore) (w : String) (currentSince : ℤ) (cs : TraderScore) (ec : ℕ)
    (helig : cs.eligible = true)
    (hstop : cs.score < config.stopScore ∨ cs.realizedPnlSum < config.stopRealizedPnl)
    (hmargin : ¬ cs.score * (1 + config.switchMarginPct) ≤ best.score) :
    selectLeadersHeld st config now (some best) (some w) currentSince (some cs) ec =
      (⟨.LEADER, some cs, [LeaderEntry.mk cs.proxyWallet cs.displayName cs.score 1],
        "holding-leader"⟩, st) := by
  have hreason : ¬ (now - currentSince < config.minHoldMs ∧
      ¬ (cs.score < config.stopScore ∨ cs.realizedPnlSum < config.stopRealizedPnl)) :=
    fun h => h.2 hstop
  unfold selectLeadersHeld
  dsimp only
  rw [if_neg (by simp [helig])]
  by_cases hsw : best.proxyWallet ≠ (some w : Option String).getD "" ∧
      ((cs.score < config.stopScore ∨ cs.realizedPnlSum < config.stopRealizedPnl) ∨
        config.minHoldMs ≤ now - currentSince)
  · rw [if_pos hsw, if_neg (fun h => hmargin h.1), if_neg hreason]
  · rw [if_neg hsw, if_neg hreason]

def sW3 : TraderScore := ⟨"W", "W", 0, 0, 0, 5, 0, 10, true, 0⟩

def sB3 : TraderScore := ⟨"B", "B", 0, 0, 0, 5, 0, 12, true, 0⟩

def cfg3 : SelConfig := ⟨.LEADER, 1, 1000, 1000000, 1 / 2, 20, -100⟩

def st3 : SelState := ⟨fun _ => 0, [], some "W", some 0⟩

/-- Counterexample to C3 as stated: the held leader's score (10) is below
`stopScore` (20), the top eligible candidate `B ≠ W` is not in cooldown,
yet the selection stays on `W` with reason `holding-leader`, because `B`'s
score (12) misses the margin threshold `10 × (1 + 0.5) = 15` that the code
also requires on the stop path. -/
theorem claim_C3_counterexample :
    sW3.score < cfg3.stopScore ∧
      st3.currentLeader = some "W" ∧
      (sortScores ([sB3, sW3].filter (fun s => s.eligible))).head? = some sB3 ∧
      sB3.proxyWallet ≠ "W" ∧
      inCooldown st3 sB3.proxyWallet cfg3.cooldownMs 100 = false ∧
      (selectLeaders [sB3, sW3] cfg3 st3 100).1.leaders = [LeaderEntry.mk "W" "W" 10 1] ∧
      (selectLeaders [sB3, sW3] cfg3 st3 100).1.reason = "holding-leader" := by
  have hsel : selectLeaders [sB3, sW3] cfg3 st3 100 =
      selectLeadersHeld st3 cfg3 100 (some sB3) (some "W") (st3.sinceMs.getD 0) (some sW3)
        ([sB3, sW3].filter (fun s => s.eligible)).length := by
    unfold selectLeaders
    rw [if_neg (by decide)]
    rw [show st3.currentLeader = some "W" from rfl]
    dsimp only
    rw [show List.find? (fun s => decide (s.proxyWallet = "W")) [sB3, sW3] = some sW3 from rfl,
      show (sortScores ([sB3, sW3].filter (fun s => s.eligible))).head? = some sB3 from rfl]
  have hred := selectLeadersHeld_no_margin st3 cfg3 100 sB3 "W" (st3.sinceMs.getD 0) sW3
    ([sB3, sW3].filter (fun s => s.eligible)).length rfl
    (Or.inl (by norm_num [sW3, cfg3])) (by norm_num [sW3, sB3, cfg3])
  rw [hsel, hred]
  refine ⟨by norm_num [sW3, cfg3], rfl, rfl, by decide, by decide, rfl, rfl⟩

def sW3b : TraderScore := ⟨"W", "W", 0, 0, 0, 5, 0, 10, true, 0⟩

def sB3b : TraderScore := ⟨"B", "B", 0, 0, 0, 5, 0, 16, true, 0⟩

/-- Witness for C3 (amended): with `B`'s score (16) clearing the threshold
(15), the stop condition forces the switch despite the minimum hold not
having elapsed. -/
theorem claim_C3_witness :
    (selectLeaders [sB3b, sW3b] cfg3 st3 100).1.leaders =
        [LeaderEntry.mk "B" "B" 16 1] ∧
      (selectLeaders [sB3b, sW3b] cfg3 st3 100).1.reason = "stop-score-triggered" := by
  have h := claim_C3_stop_switch [sB3b, sW3b] cfg3 st3 100 "W" sW3b sB3b rfl rfl
    (by decide) rfl (Or.inl (by norm_num [sW3b, cfg3])) (by decide) (by decide) (by decide)
    (by norm_num [sW3b, sB3b, cfg3])
  exact ⟨h.1, h.2.2.1 (by norm_num [sW3b, cfg3])⟩

/-- C5 (amended): in TOPK mode every wallet in the selection has
non-negative weight, and its weight is strictly positive exactly when its
score is strictly positive (a selected wallet with non-positive score gets
weight 0). -/
theorem claim_C5_topk_weights (scores : List TraderScore) (config : SelConfig)
    (st : SelState) (now : ℤ) (hmode : config.followMode = .TOPK) :
    ∀ l ∈ (selectLeaders scores config st now).1.leaders,
      0 ≤ l.weight ∧ (0 < l.weight ↔ 0 < l.score) := by
  unfold selectLeaders
  rw [if_pos hmode]
  dsimp only
  split
  · intro l hl
    simp at hl
  · next hcond =>
    push_neg at hcond
    have htp := hcond.2
    intro l hl
    dsimp only at hl
    rw [List.mem_map] at hl
    obtain ⟨s, hs, rfl⟩ := hl
    dsimp only
    refine ⟨div_nonneg (le_max_left 0 _) htp.le, ?_, ?_⟩
    · intro hw
      by_contra hns
      push_neg at hns
      rw [max_eq_left hns, zero_div] at hw
      exact lt_irrefl 0 hw
    · intro hsc
      rw [max_eq_right hsc.le]
      exact div_pos hsc htp

def sA5 : TraderScore := ⟨"A", "A", 0, 0, 0, 5, 0, 5, true, 0⟩

def sB5 : TraderScore := ⟨"B", "B", 0, 0, 0, 5, 0, -1, true, 0⟩

def cfg5 : SelConfig := ⟨.TOPK, 2, 1000, 0, 0, 0, 0⟩

def st5 : SelState := ⟨fun _ => 0, [], none, none⟩

/-- Counterexample to C5 as stated: wallet `B` (score −1) is selected with
weight exactly 0, so not every selected wallet has weight strictly
greater than 0. -/
theorem claim_C5_counterexample :
    (selectLeaders [sA5, sB5] cfg5 st5 100).1.leaders.map (fun l => l.weight) = [1, 0] ∧
      ¬ (∀ l ∈ (selectLeaders [sA5, sB5] cfg5 st5 100).1.leaders, 0 < l.weight) := by
  have hsel : (selectLeaders [sA5, sB5] cfg5 st5 100).1.leaders =
      [LeaderEntry.mk "A" "A" 5 1, LeaderEntry.mk "B" "B" (-1) 0] := by
    unfold selectLeaders
    rw [if_pos (show cfg5.followMode = FollowMode.TOPK from rfl)]
    dsimp only [sortScores, insertScore, List.filter, List.foldl, List.take]
    norm_num [sA5, sB5, st5, cfg5, inCooldown]
  rw [hsel]
  norm_num

/-- Witness for C5 (amended) at a concrete selected entry of a concrete
TOPK selection. -/
theorem claim_C5_witness :
    0 ≤ (LeaderEntry.mk "A" "A" 5 1).weight ∧
      (0 < (LeaderEntry.mk "A" "A" 5 1).weight ↔ 0 < (LeaderEntry.mk "A" "A" 5 1).score) := by
  apply claim_C5_topk_weights [sA5, sB5] cfg5 st5 100 rfl
  have hsel : (selectLeaders [sA5, sB5] cfg5 st5 100).1.leaders =
      [LeaderEntry.mk "A" "A" 5 1, LeaderEntry.mk "B" "B" (-1) 0] := by
    unfold selectLeaders
    rw [if_pos (show cfg5.followMode = FollowMode.TOPK from rfl)]
    dsimp only [sortScores, insertScore, List.filter, List.foldl, List.take]
    norm_num [sA5, sB5, st5, cfg5, inCooldown]
  rw [hsel]
  simp

/-- Accumulator form of the positive-score fold in the TOPK branch. -/
theorem foldl_add_map {α : Type} (g : α → ℚ) :
    ∀ (l : List α) (i : ℚ), l.foldl (fun a x => a + g x) i = i + (l.map g).sum := by
  intro l
  induction l with
  | nil => intro i; simp
  | cons x xs ih => intro i; simp [ih, add_assoc]

/-- The positive part used by the TOPK weighting. -/
theorem ite_pos_eq_max (q : ℚ) : (if 0 < q then q else 0) = max 0 q := by
  rcases le_or_lt q 0 with h | h
  · rw [if_neg (not_lt.mpr h), max_eq_left h]
  · rw [if_pos h, max_eq_right h.le]

/-- A list sum of termwise quotients by a common denominator. -/
theorem sum_map_div {α : Type} (g : α → ℚ) (c : ℚ) :
    ∀ l : List α, (l.map (fun x => g x / c)).sum = (l.map g).sum / c := by
  intro l
  induction l with
  | nil => simp
  | cons x xs ih => simp [ih, add_div]

/-- C6: in TOPK mode, whenever `selectLeaders` returns a non-empty
selection, the weights sum to exactly 1. -/
theorem claim_C6_topk_weight_sum (scores : List TraderScore) (config : SelConfig)
    (st : SelState) (now : ℤ)
    (hmode : config.followMode = .TOPK)
    (hne : (selectLeaders scores config st now).1.leaders ≠ []) :
    ((selectLeaders scores config st now).1.leaders.map (fun l => l.weight)).sum = 1 := by
  unfold selectLeaders at hne ⊢
  rw [if_pos hmode] at hne ⊢
  dsimp only at hne ⊢
  split at hne
  · exact absurd rfl hne
  · next hcond =>
    rw [if_neg hcond]
    push_neg at hcond
    have htp := hcond.2
    dsimp only
    rw [List.map_map]
    simp only [Function.comp_def]
    rw [sum_map_div]
    rw [foldl_add_map (fun s : TraderScore => if 0 < s.score then s.score else 0), zero_add]
    rw [foldl_add_map (fun s : TraderScore => if 0 < s.score then s.score else 0), zero_add] at htp
    simp only [ite_pos_eq_max] at htp ⊢
    exact div_self (ne_of_gt htp)

/-- Witness for C6 at a concrete non-empty TOPK selection. -/
theorem claim_C6_witness :
    ((selectLeaders [sA5, sB5] cfg5 st5 100).1.leaders.map (fun l => l.weight)).sum = 1 := by
  apply claim_C6_topk_weight_sum [sA5, sB5] cfg5 st5 100 rfl
  unfold selectLeaders
  rw [if_pos (show cfg5.followMode = FollowMode.TOPK from rfl)]
  dsimp only [sortScores, insertScore, List.filter, List.foldl, List.take]
  norm_num [sA5, sB5, st5, cfg5, inCooldown]
  simp

/-- C8 (amended): `normalizeTrade` returns `null` exactly for the
conditions it actually checks — market id absent or empty, side not
BUY/SELL after uppercasing, outcome index / size / price coercing to a
non-finite number, or an unresolvable timestamp. A missing transaction id,
size, price or outcome index alone is silently defaulted (to `""` / `0`)
instead of causing rejection. This theorem proves the rejection
directions. -/
theorem claim_C8_rejects (raw : RawTrade) (w : String)
    (h :
      (coalesce [raw.conditionId, raw.condition_id, raw.market, raw.marketId]).getD "" = "" ∨
      ¬ (jsToUpper ((coalesce [raw.side, raw.takerSide, raw.taker_side]).getD "") = "BUY" ∨
          jsToUpper ((coalesce [raw.side, raw.takerSide, raw.taker_side]).getD "") = "SELL") ∨
      (asNumber (coalesce [raw.outcomeIndexF, raw.outcome_indexF, raw.outcomeF]) 0).isFinite =
        false ∨
      (asNumber (some ((coalesce [raw.sizeF, raw.quantityF, raw.amountF, raw.sharesF]).getD
        (.val 0))) 0).isFinite = false ∨
      (asNumber (some ((coalesce [raw.priceF, raw.avgPriceF, raw.rateF]).getD
        (.val 0))) 0).isFinite = false ∨
      toMs (coalesce [raw.timestampF, raw.timeF, raw.createdAtF, raw.created_atF]) = none) :
    normalizeTrade raw w = none := by
  rcases h with h | h | h | h | h | h <;> simp [normalizeTrade, h]

def rawC8w : RawTrade := { timestampF := some (.str false none none) }

/-- Witness for C8 (amended): a record with no market id (and an
unparseable timestamp) is rejected. -/
theorem claim_C8_witness : normalizeTrade rawC8w "0xw" = none :=
  claim_C8_rejects rawC8w "0xw" (Or.inl rfl)

def rawCE : RawTrade :=
  { conditionId := some "0xabc", side := some "BUY",
    timestampF := some (.num (.val 1700000000000)) }

/-- Counterexample to C8 as stated: the transaction id and the size, price
and outcome-index fields are all absent from the raw record, yet
`normalizeTrade` returns a populated Trade with transaction id `""` and
size, price and outcome index silently defaulted to `0` — not `null`. -/
theorem claim_C8_counterexample :
    rawCE.transactionHash = none ∧ rawCE.transaction_hash = none ∧ rawCE.txHash = none ∧
      rawCE.sizeF = none ∧ rawCE.quantityF = none ∧ rawCE.amountF = none ∧
      rawCE.sharesF = none ∧ rawCE.priceF = none ∧ rawCE.outcomeIndexF = none ∧
      normalizeTrade rawCE "0xwallet" =
        some ⟨"0xwallet", "", "0xabc", .val 0, "BUY", .val 0, .val 0,
          .val 1700000000000⟩ := by
  refine ⟨rfl, rfl, rfl, rfl, rfl, rfl, rfl, rfl, rfl, ?_⟩
  decide

/-- Store/ghost behavior of the submission stage: placed and dry-run add
exactly the order notional for today, failures leave the store untouched,
and the ghost fields pass through. -/
theorem mirrorSubmit_spec (trade : MTrade) (cfg : MirrorConfig) (env : MirrorEnv)
    (store : String → ℚ) (buyTtl desired : Option ℚ) (notional shares limitPrice : ℚ) :
    (((mirrorSubmit trade cfg env store buyTtl desired notional shares
            limitPrice).result.status = .placed ∨
        (mirrorSubmit trade cfg env store buyTtl desired notional shares
            limitPrice).result.status = .dry_run) →
      (mirrorSubmit trade cfg env store buyTtl desired notional shares
          limitPrice).result.notional = some notional ∧
        (mirrorSubmit trade cfg env store buyTtl desired notional shares limitPrice).store =
          addDailyNotional store env.today notional) ∧
      (((mirrorSubmit trade cfg env store buyTtl desired notional shares
            limitPrice).result.status = .skipped ∨
          (mirrorSubmit trade cfg env store buyTtl desired notional shares
              limitPrice).result.status = .failed) →
        (mirrorSubmit trade cfg env store buyTtl desired notional shares limitPrice).store =
          store) ∧
      (mirrorSubmit trade cfg env store buyTtl desired notional shares
          limitPrice).buyOrderTtlSeconds = buyTtl ∧
      (mirrorSubmit trade cfg env store buyTtl desired notional shares
          limitPrice).desiredNotional = desired := by
  unfold mirrorSubmit
  dsimp only
  split
  · exact ⟨fun _ => ⟨rfl, rfl⟩, fun h => by simp at h, rfl, rfl⟩
  · split
    · exact ⟨fun h => by simp at h, fun _ => rfl, rfl, rfl⟩
    · split
      · exact ⟨fun h => by simp at h, fun _ => rfl, rfl, rfl⟩
      · exact ⟨fun _ => ⟨rfl, rfl⟩, fun h => by simp at h, rfl, rfl⟩

/-- Store/ghost behavior of the preflight gates: both skip leaves leave the
store untouched, otherwise the submission stage's behavior holds. -/
theorem mirrorPreflightGate_spec (trade : MTrade) (cfg : MirrorConfig) (env : MirrorEnv)
    (store : String → ℚ) (buyTtl desired : Option ℚ) (notional shares limitPrice : ℚ) :
    (((mirrorPreflightGate trade cfg env store buyTtl desired notional shares
            limitPrice).result.status = .placed ∨
        (mirrorPreflightGate trade cfg env store buyTtl desired notional shares
            limitPrice).result.status = .dry_run) →
      (mirrorPreflightGate trade cfg env store buyTtl desired notional shares
          limitPrice).result.notional = some notional ∧
        (mirrorPreflightGate trade cfg env store buyTtl desired notional shares
            limitPrice).store = addDailyNotional store env.today notional) ∧
      (((mirrorPreflightGate trade cfg env store buyTtl desired notional shares
            limitPrice).result.status = .skipped ∨
          (mirrorPreflightGate trade cfg env store buyTtl desired notional shares
              limitPrice).result.status = .failed) →
        (mirrorPreflightGate trade cfg env store buyTtl desired notional shares
            limitPrice).store = store) ∧
      (mirrorPreflightGate trade cfg env store buyTtl desired notional shares
          limitPrice).buyOrderTtlSeconds = buyTtl ∧
      (mirrorPreflightGate trade cfg env store buyTtl desired notional shares
          limitPrice).desiredNotional = desired := by
  unfold mirrorPreflightGate mkSkip
  dsimp only
  split
  · exact ⟨fun h => by simp at h, fun _ => rfl, rfl, rfl⟩
  · split
    · exact ⟨fun h => by simp at h, fun _ => rfl, rfl, rfl⟩
    · exact mirrorSubmit_spec trade cfg env store buyTtl desired notional shares limitPrice

/-- Store behavior of the sizing stage under a finite daily cap: a placed
or dry-run result adds a notional that was re-checked against the cap
after rounding; skips and failures leave the store untouched. -/
theorem mirrorSizing_spec (trade : MTrade) (cfg : MirrorConfig) (env : MirrorEnv)
    (store : String → ℚ) (buyTtl : Option ℚ) (desiredNotional execPrice cap : ℚ)
    (hcap : cfg.maxDailyUsdc = some cap) :
    (((mirrorSizing trade cfg env store buyTtl desiredNotional execPrice).result.status =
          .placed ∨
        (mirrorSizing trade cfg env store buyTtl desiredNotional execPrice).result.status =
          .dry_run) →
      ∃ n, (mirrorSizing trade cfg env store buyTtl desiredNotional
            execPrice).result.notional = some n ∧
        (mirrorSizing trade cfg env store buyTtl desiredNotional execPrice).store =
          addDailyNotional store env.today n ∧
        store env.today + n ≤ cap) ∧
      (((mirrorSizing trade cfg env store buyTtl desiredNotional execPrice).result.status =
            .skipped ∨
          (mirrorSizing trade cfg env store buyTtl desiredNotional execPrice).result.status =
            .failed) →
        (mirrorSizing trade cfg env store buyTtl desiredNotional execPrice).store = store) ∧
      (mirrorSizing trade cfg env store buyTtl desiredNotional
          execPrice).buyOrderTtlSeconds = buyTtl ∧
      (mirrorSizing trade cfg env store buyTtl desiredNotional
          execPrice).desiredNotional = some desiredNotional := by
  unfold mirrorSizing mkSkip
  rw [hcap]
  dsimp only
  repeat' split
  all_goals first
    | exact ⟨fun h => by simp at h, fun _ => rfl, rfl, rfl⟩
    | exact ⟨fun hst => ⟨_, ((mirrorPreflightGate_spec _ _ _ _ _ _ _ _ _).1 hst).1,
          ((mirrorPreflightGate_spec _ _ _ _ _ _ _ _ _).1 hst).2,
          le_of_not_lt (fun hlt => absurd (decide_eq_true hlt) (by assumption))⟩,
        (mirrorPreflightGate_spec _ _ _ _ _ _ _ _ _).2.1,
        (mirrorPreflightGate_spec _ _ _ _ _ _ _ _ _).2.2.1,
        (mirrorPreflightGate_spec _ _ _ _ _ _ _ _ _).2.2.2⟩

/-- Store behavior of the post-market-gate pipeline under a finite daily
cap: a placed or dry-run result adds a notional satisfying both the
pre-rounding and post-rounding cap checks. -/
theorem mirrorTradeRest_spec (trade : MTrade) (weight : ℚ) (cfg : MirrorConfig)
    (env : MirrorEnv) (store : String → ℚ) (buyTtl : Option ℚ) (cap : ℚ)
    (hcap : cfg.maxDailyUsdc = some cap) :
    (((mirrorTradeRest trade weight cfg env store buyTtl).result.status = .placed ∨
        (mirrorTradeRest trade weight cfg env store buyTtl).result.status = .dry_run) →
      ∃ n d, (mirrorTradeRest trade weight cfg env store buyTtl).result.notional = some n ∧
        (mirrorTradeRest trade weight cfg env store buyTtl).desiredNotional = some d ∧
        (mirrorTradeRest trade weight cfg env store buyTtl).store =
          addDailyNotional store env.today n ∧
        store env.today + n ≤ cap ∧ store env.today + d ≤ cap) ∧
      (((mirrorTradeRest trade weight cfg env store buyTtl).result.status = .skipped ∨
          (mirrorTradeRest trade weight cfg env store buyTtl).result.status = .failed) →
        (mirrorTradeRest trade weight cfg env store buyTtl).store = store) := by
  unfold mirrorTradeRest mkSkip
  rw [hcap]
  dsimp only
  repeat' split
  all_goals first
    | exact ⟨fun h => by simp at h, fun _ => rfl⟩
    | (refine ⟨fun hst => ?_, (mirrorSizing_spec _ _ _ _ _ _ _ _ hcap).2.1⟩
       obtain ⟨n, hn, hstore, hle⟩ := (mirrorSizing_spec _ _ _ _ _ _ _ _ hcap).1 hst
       exact ⟨n, _, hn, (mirrorSizing_spec _ _ _ _ _ _ _ _ hcap).2.2.2, hstore, hle,
         le_of_not_lt (fun hlt => absurd (decide_eq_true hlt) (by assumption))⟩)

/-- `mirrorTradeRest` reports the `buyOrderTtlSeconds` local it was given,
whatever path it takes. -/
theorem mirrorTradeRest_ttl (trade : MTrade) (weight : ℚ) (cfg : MirrorConfig)
    (env : MirrorEnv) (store : String → ℚ) (buyTtl : Option ℚ) :
    (mirrorTradeRest trade weight cfg env store buyTtl).buyOrderTtlSeconds = buyTtl := by
  have hsz : ∀ d e, (mirrorSizing trade cfg env store buyTtl d e).buyOrderTtlSeconds =
      buyTtl := by
    intro d e
    unfold mirrorSizing mkSkip
    dsimp only
    repeat' split
    all_goals first
      | rfl
      | exact (mirrorPreflightGate_spec _ _ _ _ _ _ _ _ _).2.2.1
  unfold mirrorTradeRest mkSkip
  dsimp only
  repeat' split
  all_goals first
    | rfl
    | exact hsz _ _

/-- C2: with a finite daily cap configured, every `mirrorTrade` invocation
preserves `dailyNotional(today) ≤ maxDailyUsdc`: a placed or dry-run result
adds exactly the order notional, which passed both the pre-rounding
(`desiredNotional`) and post-rounding (`notional`) cap checks; a skipped
(or failed) result leaves the accumulator unchanged. -/
theorem claim_C2_daily_cap (trade : MTrade) (weight : ℚ) (cfg : MirrorConfig)
    (env : MirrorEnv) (store : String → ℚ) (cap : ℚ)
    (hcap : cfg.maxDailyUsdc = some cap) :
    (((mirrorTrade trade weight cfg env store).result.status = .placed ∨
        (mirrorTrade trade weight cfg env store).result.status = .dry_run) →
      ∃ n d, (mirrorTrade trade weight cfg env store).result.notional = some n ∧
        (mirrorTrade trade weight cfg env store).desiredNotional = some d ∧
        (mirrorTrade trade weight cfg env store).store =
          addDailyNotional store env.today n ∧
        store env.today + n ≤ cap ∧ store env.today + d ≤ cap) ∧
      (((mirrorTrade trade weight cfg env store).result.status = .skipped ∨
          (mirrorTrade trade weight cfg env store).result.status = .failed) →
        (mirrorTrade trade weight cfg env store).store = store) ∧
      (store env.today ≤ cap →
        (mirrorTrade trade weight cfg env store).store env.today ≤ cap) := by
  have hAB :
      (((mirrorTrade trade weight cfg env store).result.status = .placed ∨
          (mirrorTrade trade weight cfg env store).result.status = .dry_run) →
        ∃ n d, (mirrorTrade trade weight cfg env store).result.notional = some n ∧
          (mirrorTrade trade weight cfg env store).desiredNotional = some d ∧
          (mirrorTrade trade weight cfg env store).store =
            addDailyNotional store env.today n ∧
          store env.today + n ≤ cap ∧ store env.today + d ≤ cap) ∧
        (((mirrorTrade trade weight cfg env store).result.status = .skipped ∨
            (mirrorTrade trade weight cfg env store).result.status = .failed) →
          (mirrorTrade trade weight cfg env store).store = store) := by
    unfold mirrorTrade mkSkip
    dsimp only
    repeat' split
    all_goals first
      | exact ⟨fun h => by simp at h, fun _ => rfl⟩
      | exact mirrorTradeRest_spec _ _ _ _ _ _ _ hcap
  refine ⟨hAB.1, hAB.2, ?_⟩
  intro hle
  cases hst : (mirrorTrade trade weight cfg env store).result.status with
  | placed =>
    obtain ⟨n, d, _, _, hstore, hn, _⟩ := hAB.1 (Or.inl hst)
    rw [hstore]
    simpa [addDailyNotional] using hn
  | dry_run =>
    obtain ⟨n, d, _, _, hstore, hn, _⟩ := hAB.1 (Or.inr hst)
    rw [hstore]
    simpa [addDailyNotional] using hn
  | skipped =>
    rw [hAB.2 (Or.inl hst)]
    exact hle
  | failed =>
    rw [hAB.2 (Or.inr hst)]
    exact hle

/-- C7: for a BUY trade that reaches the market-lifecycle gate with a
resolvable end time, `mirrorTrade` skips when `now ≥ endTime − safety`,
otherwise computes the feasible TTL
`min(orderTtlSeconds, ⌊(endTime−now)/1000⌋ − expirationSafetySeconds)`,
skips when that TTL is ≤ 1 second, and otherwise proceeds into the rest of
the pipeline carrying exactly that TTL. -/
theorem claim_C7_market_end_gate (trade : MTrade) (weight : ℚ) (cfg : MirrorConfig)
    (env : MirrorEnv) (store : String → ℚ) (tid : String) (m : MarketMeta) (endMs : ℚ)
    (hside : trade.side = .BUY)
    (hfields : getMissingTradeFields trade = [])
    (htok : validateTokenId (env.tokenIds.get? trade.outcomeIndex) trade.conditionId = .ok tid)
    (hcool : ¬ (0 < cfg.balanceErrorCooldownMs ∧ env.now1 < env.balanceCooldownUntilMs))
    (hmkt : env.market = some m)
    (hcat : m.categoryAllowed = true)
    (hopen : ¬ (m.closed = true ∨ m.archived = true ∨ m.active = some false))
    (hend : (match env.gammaEndMs with
      | some e => some e
      | none => env.clobEndMs) = some endMs) :
    (endMs - cfg.marketEndSafetySeconds * 1000 ≤ (env.now2 : ℚ) →
      (mirrorTrade trade weight cfg env store).result.status = .skipped ∧
        (mirrorTrade trade weight cfg env store).result.reason =
          "market expired/too close to end") ∧
      (¬ endMs - cfg.marketEndSafetySeconds * 1000 ≤ (env.now2 : ℚ) →
        min cfg.orderTtlSeconds (((⌊(endMs - (env.now2 : ℚ)) / 1000⌋ : ℤ) : ℚ) -
          cfg.expirationSafetySeconds) ≤ 1 →
        (mirrorTrade trade weight cfg env store).result.status = .skipped ∧
          (mirrorTrade trade weight cfg env store).result.reason =
            "order TTL crosses market end") ∧
      (¬ endMs - cfg.marketEndSafetySeconds * 1000 ≤ (env.now2 : ℚ) →
        ¬ min cfg.orderTtlSeconds (((⌊(endMs - (env.now2 : ℚ)) / 1000⌋ : ℤ) : ℚ) -
          cfg.expirationSafetySeconds) ≤ 1 →
        mirrorTrade trade weight cfg env store =
            mirrorTradeRest trade weight cfg env store
              (some (min cfg.orderTtlSeconds
                (((⌊(endMs - (env.now2 : ℚ)) / 1000⌋ : ℤ) : ℚ) -
                  cfg.expirationSafetySeconds))) ∧
          (mirrorTrade trade weight cfg env store).buyOrderTtlSeconds =
            some (min cfg.orderTtlSeconds
              (((⌊(endMs - (env.now2 : ℚ)) / 1000⌋ : ℤ) : ℚ) -
                cfg.expirationSafetySeconds))) := by
  have hred : mirrorTrade trade weight cfg env store =
      (if endMs - cfg.marketEndSafetySeconds * 1000 ≤ (env.now2 : ℚ) then
        mkSkip store "market expired/too close to end" none none
      else if min cfg.orderTtlSeconds (((⌊(endMs - (env.now2 : ℚ)) / 1000⌋ : ℤ) : ℚ) -
          cfg.expirationSafetySeconds) ≤ 1 then
        mkSkip store "order TTL crosses market end" none none
      else
        mirrorTradeRest trade weight cfg env store
          (some (min cfg.orderTtlSeconds (((⌊(endMs - (env.now2 : ℚ)) / 1000⌋ : ℤ) : ℚ) -
            cfg.expirationSafetySeconds)))) := by
    unfold mirrorTrade
    rw [if_neg (fun hne => hne hfields), htok]
    dsimp only
    rw [hside]
    rw [if_neg (fun h => hcool h.2), if_pos rfl, hmkt]
    dsimp only
    rw [if_neg (by simp [hcat]), if_neg hopen, hend]
  refine ⟨?_, ?_, ?_⟩
  · intro hexp
    rw [hred, if_pos hexp]
    exact ⟨rfl, rfl⟩
  · intro hexp httl
    rw [hred, if_neg hexp, if_pos httl]
    exact ⟨rfl, rfl⟩
  · intro hexp httl
    rw [hred, if_neg hexp, if_neg httl]
    exact ⟨rfl, mirrorTradeRest_ttl _ _ _ _ _ _⟩

def store0 : String → ℚ := fun _ => 0

def bm0 : BookMeta := ⟨⟨false, 0, [0, 1]⟩, ⟨false, 1, []⟩, false⟩

def pfe0 : PreflightEnv :=
  ⟨some "0xsigner", false, .ok (some ⟨false, 100, []⟩, some ⟨false, 100, []⟩), .ok []⟩

def m0 : MarketMeta := ⟨false, false, some true, true, none⟩

def err0 : ErrInfo := ⟨"", false, false, false⟩

def t2 : MTrade := ⟨"", "", "", 0, .BUY, 0, 0, 0⟩

def cfg2 : MirrorConfig := ⟨1, 50, 1000, 0, some 100, 60, 60, 300, true, 0, none, "0xme", 0⟩

def env2 : MirrorEnv :=
  ⟨["tok"], 0, 0, some m0, some 600000, none, 0, some 1, none, bm0, none, "2026-10-11",
    false, false, .ok true, pfe0, 0, .resp true err0 (some "oid"), .resp true err0 (some "oid")⟩

/-- Witness for C2: a skipped invocation (missing required fields) under a
finite cap leaves the daily accumulator unchanged. -/
theorem claim_C2_witness : (mirrorTrade t2 1 cfg2 env2 store0).store = store0 :=
  (claim_C2_daily_cap t2 1 cfg2 env2 store0 100 rfl).2.1 (Or.inl rfl)

def t7 : MTrade := ⟨"0xw", "0xtx", "cond1", 0, .BUY, 100, 1, 0⟩

def cfg7 : MirrorConfig := ⟨1, 50, 1000, 0, some 100, 60, 60, 300, true, 0, none, "0xme", 0⟩

def env7 : MirrorEnv :=
  ⟨["tok"], 0, 0, some m0, some 600000, none, 0, some 1, none, bm0, none, "2026-10-11",
    false, false, .ok true, pfe0, 0, .resp true err0 none, .resp true err0 none⟩

/-- Witness for C7 at the spec scenario: market end 10 minutes away,
end-safety 300 s, configured TTL 60 s, expiration-safety 60 s — the gate
passes and the feasible TTL is `min(60, 600 − 60) = 60`. -/
theorem claim_C7_witness :
    (mirrorTrade t7 1 cfg7 env7 store0).buyOrderTtlSeconds = some 60 := by
  have h := claim_C7_market_end_gate t7 1 cfg7 env7 store0 "tok" m0 600000 rfl rfl rfl
    (by decide) rfl rfl (by decide) rfl
  have hc := h.2.2 (by norm_num [cfg7, env7]) (by norm_num [cfg7, env7, min_def])
  rw [hc.2]
  norm_num [cfg7, env7, min_def]

end BOT
